import Mathlib

/-!
Verification of the readingproc process-supervision library.

The definitions below are a shallow embedding of the newer copy of the core
(`readingproc/__init__.py`, the version that contains `return_code`, `read()`
and the `ReadingSet` driver), which the specification follows.  Python byte
strings are lists of naturals, wall-clock times are rationals, raised
exceptions are modelled with `Except`, and the interaction with the operating
system (results of `os.read`, `poll`, `Popen.poll`) is supplied as explicit
input data.
-/

namespace Readingproc

/-- Byte strings (Python `bytes`) are lists of byte values. -/
abbrev Bytes := List Nat

/-- Wall-clock instants returned by `time()` are rationals. -/
abbrev Time := ℚ

/-- Result of one `os.read` call on a file descriptor: either a chunk of
bytes (possibly empty, meaning end of file) or an `OSError` with an errno. -/
inductive ReadResult where
  | chunk (data : Bytes)
  | err (errno : Nat)
deriving DecidableEq, Repr

/-- Errno for the would-block condition on a non-blocking descriptor. -/
def EAGAIN : Nat := 11

/-- Errno for an unrecoverable bad-file-descriptor error. -/
def EBADF : Nat := 9

/-- One `os.read(fp.fileno(), self._read_chunk)` call, with the exception
channel explicit: an `OSError` becomes `.error errno`. -/
def osRead : ReadResult → Except Nat Bytes
  | .chunk b => .ok b
  | .err e => .error e

/-- ReadingProc._read_while: loop accumulating chunks into `buff`; a zero
length chunk breaks the loop, and the `except OSError` handler catches every
`OSError` (would-block and unrecoverable ones alike) and breaks as well, so
the function always returns the accumulated buffer and never propagates an
error. -/
def readWhileAux (buff : Bytes) : List ReadResult → Bytes
  | [] => buff
  | ev :: rest =>
    match osRead ev with
    | .error _ => buff
    | .ok [] => buff
    | .ok b => readWhileAux (buff ++ b) rest

/-- ReadingProc._read_while, starting from an empty buffer. -/
def readWhile (events : List ReadResult) : Bytes :=
  readWhileAux [] events

/-- Chunks actually consumed by `_read_while`: the prefix of proper chunks
before the first empty read or `OSError`. -/
def takenChunks : List ReadResult → List Bytes
  | [] => []
  | ev :: rest =>
    match osRead ev with
    | .error _ => []
    | .ok [] => []
    | .ok b => b :: takenChunks rest

/-- Following the words of the specification for the Pipe Reader: read
repeatedly, concatenating chunks, stop on end of file or would-block, but
surface unrecoverable OS errors (anything other than would-block) to the
caller instead of swallowing them. -/
def readWhileSpec (buff : Bytes) : List ReadResult → Except Nat Bytes
  | [] => .ok buff
  | ev :: rest =>
    match osRead ev with
    | .error e => if e = EAGAIN then .ok buff else .error e
    | .ok [] => .ok buff
    | .ok b => readWhileSpec (buff ++ b) rest

/-- Exceptions that `_check_timeouts` can raise. -/
inductive TimeoutExc where
  | chunkTimeout
  | totalTimeout
deriving DecidableEq, Repr

/-- Test `timeout is not None and cur_time > base + timeout`. -/
def timeoutExpired (timeout : Option Time) (base cur : Time) : Bool :=
  match timeout with
  | none => false
  | some t => decide (cur > base + t)

/-- ReadingProc._check_timeouts: the chunk timeout is tested first and its
exception raised; only otherwise (`elif`) is the total timeout tested. -/
def checkTimeouts (chunkTimeout totalTimeout : Option Time)
    (chunkTime totalTime curTime : Time) : Option TimeoutExc :=
  if timeoutExpired chunkTimeout chunkTime curTime then some .chunkTimeout
  else if timeoutExpired totalTimeout totalTime curTime then some .totalTimeout
  else none

/-- The `os.O_NONBLOCK` status flag bit. -/
def O_NONBLOCK : Nat := 2048

/-- Exceptions raised by the Managed Child methods:
`ProcessIsNotStartedError` and `ProcessIsDeadError`. -/
inductive ChildErr where
  | processIsNotStarted
  | processIsDead
deriving DecidableEq, Repr

/-- The OS-level view of a spawned `subprocess.Popen` handle: the pid, what
`poll()` currently reports (`none` while the process runs), the bytes written
to its stdin so far, and the status-flag words of the stdout and stderr read
descriptors. -/
structure Proc where
  pid : Nat
  exitCode : Option Int
  stdinBuf : Bytes
  stdoutFlags : Nat
  stderrFlags : Nat
deriving DecidableEq, Repr

/-- The instance state of a `ReadingProc` object (the newer core): `_proc`
(present iff started and not yet reaped), `_pid`, `_return_code`,
`_chunk_time`, `_total_time`, whether the poll objects are registered, and
the `TimeoutProc` extension fields (`total_timeout`, `chunk_timeout`, present
only when the object is a `TimeoutProc`). -/
structure Child where
  proc : Option Proc
  pid : Option Nat
  returnCode : Option Int
  chunkTime : Time
  totalTime : Time
  pollRegistered : Bool
  isTimeoutProc : Bool
  totalTimeout : Option Time
  chunkTimeout : Option Time
deriving DecidableEq, Repr

/-- ReadingProc.alive: `self._proc is not None and self._proc.poll() is None`. -/
def alive (c : Child) : Bool :=
  match c.proc with
  | none => false
  | some p => p.exitCode.isNone

/-- ReadingProc.start: assigns a fresh subprocess handle, records its pid and
resets `_return_code` to `None`.  The method performs no state check at all
and always returns normally; the result lives in the shared error monad of
the class so that the absence of an exception is observable. -/
def start (c : Child) (fresh : Proc) : Except ChildErr Child :=
  .ok { c with proc := some fresh, pid := some fresh.pid, returnCode := none }

/-- ReadingProc.send_stdin: the `_check_started` decorator raises
`ProcessIsNotStartedError` when `self._proc is None`; otherwise the bytes are
written to the stdin handle of the subprocess and flushed. -/
def sendStdin (c : Child) (s : Bytes) : Except ChildErr Child :=
  match c.proc with
  | none => .error .processIsNotStarted
  | some p => .ok { c with proc := some { p with stdinBuf := p.stdinBuf ++ s } }

/-- The data returned in each iteration: `ProcessData(stdout, stderr)`. -/
structure ProcessData where
  stdout : Bytes
  stderr : Bytes
deriving DecidableEq, Repr

/-- What the environment supplies to one read cycle: the results of
`poll(0)` on stdout and stderr, and the `os.read` results each pipe would
deliver while being drained. -/
structure ReadEnv where
  pollStdout : Bool
  pollStderr : Bool
  stdoutEvents : List ReadResult
  stderrEvents : List ReadResult
deriving DecidableEq, Repr

/-- ReadingProc._yield_ready_read: drain each descriptor that polled ready;
return `ProcessData` when at least one byte was obtained, else `None`. -/
def yieldReadyRead (env : ReadEnv) : Option ProcessData :=
  let stdout := if env.pollStdout then readWhile env.stdoutEvents else []
  let stderr := if env.pollStderr then readWhile env.stderrEvents else []
  if stdout.length > 0 ∨ stderr.length > 0 then some ⟨stdout, stderr⟩ else none

/-- ReadingProc.read together with its state effects: the `_check_started`
decorator raises `ProcessIsNotStartedError` when `_proc is None`; then the
`alive` test raises `ProcessIsDeadError` when the process has exited; else
the poll objects are registered, the two descriptors are switched to
non-blocking (`unblock_read` saves the old flag words and sets
`flags | O_NONBLOCK`), `_yield_ready_read` runs, and the `finally` blocks
restore the saved flag words and unregister the poll objects. -/
def readFull (c : Child) (env : ReadEnv) :
    Except ChildErr (Option ProcessData × Child) :=
  match c.proc with
  | none => .error .processIsNotStarted
  | some p =>
    if p.exitCode.isNone then
      let savedOut := p.stdoutFlags
      let savedErr := p.stderrFlags
      let p1 : Proc := { p with stdoutFlags := savedOut ||| O_NONBLOCK,
                                stderrFlags := savedErr ||| O_NONBLOCK }
      let result := yieldReadyRead env
      let p2 : Proc := { p1 with stdoutFlags := savedOut, stderrFlags := savedErr }
      .ok (result, { c with proc := some p2, pollRegistered := false })
    else
      .error .processIsDead

/-- ReadingProc.read, value part only. -/
def read (c : Child) (env : ReadEnv) : Except ChildErr (Option ProcessData) :=
  (readFull c env).map (fun r => r.1)

/-- Environment of one pass of the `iter_run` while loop: the current
`time()`, what `self._proc.poll()` reports at the loop head, and the data the
pipes would deliver to `_yield_ready_read` during this pass. -/
structure Cycle where
  now : Time
  polled : Option Int
  env : ReadEnv
deriving DecidableEq, Repr

/-- How one `iter_run` generator run ends: normal completion (after `join`
the child is reaped and `_proc` cleared), a raised timeout (the `finally`
blocks have run but the child was neither joined nor cleared), or the
supplied trace ended while the process was still running. -/
inductive RunOutcome where
  | done (yields : List ProcessData) (final : Child)
  | raised (yields : List ProcessData) (e : TimeoutExc) (final : Child)
  | outOfFuel (yields : List ProcessData) (final : Child)
deriving DecidableEq, Repr

/-- The while loop of ReadingProc.iter_run.  Each pass with `poll() is None`
runs under `_unblock_read` (save both flag words, set `O_NONBLOCK`, restore
in `finally`), reads, then checks timeouts — a raised timeout escapes after
the flag restore and poll unregistration; if data was read, `_chunk_time` is
updated and the data yielded.  When `poll()` reports an exit code the loop
ends, a final drain runs, `join` stores the return code, and `_proc` is set
to `None`. -/
def iterRunLoop (chunkTimeout totalTimeout : Option Time) (p : Proc)
    (c : Child) (cycles : List Cycle) (acc : List ProcessData) : RunOutcome :=
  match cycles with
  | [] => .outOfFuel acc.reverse c
  | cy :: rest =>
    match cy.polled with
    | some code =>
      let result := yieldReadyRead cy.env
      let yields := match result with
        | some d => acc.reverse ++ [d]
        | none => acc.reverse
      .done yields
        { c with proc := none, returnCode := some code, pollRegistered := false }
    | none =>
      let savedOut := p.stdoutFlags
      let savedErr := p.stderrFlags
      let p1 : Proc := { p with stdoutFlags := savedOut ||| O_NONBLOCK,
                                stderrFlags := savedErr ||| O_NONBLOCK }
      let result := yieldReadyRead cy.env
      let p2 : Proc := { p1 with stdoutFlags := savedOut, stderrFlags := savedErr }
      let c2 : Child := { c with proc := some p2 }
      match checkTimeouts chunkTimeout totalTimeout c.chunkTime c.totalTime cy.now with
      | some e => .raised acc.reverse e { c2 with pollRegistered := false }
      | none =>
        match result with
        | some d =>
          iterRunLoop chunkTimeout totalTimeout p2
            { c2 with chunkTime := cy.now } rest (d :: acc)
        | none => iterRunLoop chunkTimeout totalTimeout p2 c2 rest acc

/-- ReadingProc.iter_run: the `_check_started` decorator raises
`ProcessIsNotStartedError` when `_proc is None`; `_init_timeouts` sets both
`_chunk_time` and `_total_time` to the entry time `t0`; `_register_poll`
registers the poll objects; then the while loop runs. -/
def iterRun (chunkTimeout totalTimeout : Option Time) (t0 : Time) (c : Child)
    (cycles : List Cycle) : Except ChildErr RunOutcome :=
  match c.proc with
  | none => .error .processIsNotStarted
  | some p =>
    .ok (iterRunLoop chunkTimeout totalTimeout p
      { c with chunkTime := t0, totalTime := t0, pollRegistered := true }
      cycles [])

/-- ReadingItemTimeoutTimes, after its two reset calls: the recorded total
and chunk base instants for one member of a `ReadingSet` iteration. -/
structure ReadingItemTimeoutTimes where
  totalTimeoutTime : Time
  chunkTimeoutTime : Time
deriving DecidableEq, Repr

/-- ReadingItemTimeoutTimes.reset_total_timeout. -/
def resetTotalTimeout (tt : ReadingItemTimeoutTimes) (now : Time) :
    ReadingItemTimeoutTimes :=
  { tt with totalTimeoutTime := now }

/-- ReadingItemTimeoutTimes.reset_chunk_timeout. -/
def resetChunkTimeout (tt : ReadingItemTimeoutTimes) (now : Time) :
    ReadingItemTimeoutTimes :=
  { tt with chunkTimeoutTime := now }

/-- ReadingItemTimeoutTimes.is_total_timeout:
`time() - self._total_timeout_time > total_timeout`. -/
def isTotalTimeout (tt : ReadingItemTimeoutTimes) (timeout now : Time) : Bool :=
  decide (now - tt.totalTimeoutTime > timeout)

/-- ReadingItemTimeoutTimes.is_chunk_timeout:
`time() - self._chunk_timeout_time > chunk_timeout`. -/
def isChunkTimeout (tt : ReadingItemTimeoutTimes) (timeout now : Time) : Bool :=
  decide (now - tt.chunkTimeoutTime > timeout)

/-- ReadingSet._extract_timeout_arg: a `TimeoutProc` prefers its own
non-`None` field over the default passed to `ReadingSet.iter_run`. -/
def extractTimeoutArg (c : Child) (ownTimeout defaultTimeout : Option Time) :
    Option Time :=
  if c.isTimeoutProc then
    match ownTimeout with
    | none => defaultTimeout
    | some t => some t
  else defaultTimeout

/-- ReadingSet._extract_total_timeout. -/
def extractTotalTimeout (c : Child) (defaultTimeout : Option Time) : Option Time :=
  extractTimeoutArg c c.totalTimeout defaultTimeout

/-- ReadingSet._extract_chunk_timeout. -/
def extractChunkTimeout (c : Child) (defaultTimeout : Option Time) : Option Time :=
  extractTimeoutArg c c.chunkTimeout defaultTimeout

/-- Exceptions carried inside a `ReadingItemData` yielded by
`ReadingSet.iter_run` (each message names the pid of the member). -/
inductive SetExc where
  | totalTimeout (pid : Option Nat)
  | chunkTimeout (pid : Option Nat)
  | procEnd (pid : Option Nat)
deriving DecidableEq, Repr

/-- ReadingItemData: stdout, stderr and exception of one driver yield. -/
structure ReadingItemData where
  stdout : Option Bytes
  stderr : Option Bytes
  exception : Option SetExc
deriving DecidableEq, Repr

/-- Effect of one member visit in the driver loop: what (if anything) is
yielded for this member, whether it is removed from `_active_procs`, and its
updated `ReadingItemTimeoutTimes` entry. -/
structure StepResult where
  yielded : Option ReadingItemData
  removed : Bool
  times : ReadingItemTimeoutTimes
deriving DecidableEq, Repr

/-- Chunk-timeout half of the driver member visit: when the effective chunk
timeout is set and expired, the member is removed, its chunk base reset, and
a `ChunkTimeout` item yielded; otherwise nothing happens. -/
def iterStepChunk (chunkTimeout : Option Time) (c : Child)
    (tt : ReadingItemTimeoutTimes) (now : Time) : StepResult :=
  match extractChunkTimeout c chunkTimeout with
  | some t =>
    if isChunkTimeout tt t now then
      ⟨some ⟨none, none, some (.chunkTimeout c.pid)⟩, true, resetChunkTimeout tt now⟩
    else ⟨none, false, tt⟩
  | none => ⟨none, false, tt⟩

/-- Body of the `for proc in active_procs_copy` loop of ReadingSet.iter_run:
call `proc.read()`; on data, yield it with no exception (the timeout entry is
left untouched); on no data, test the effective total then chunk timeout,
removing the member and yielding the exception when one expired; a raised
`ProcessIsDeadError` removes the member and yields `ProcEnd`; any other
exception from `read` propagates uncaught. -/
def iterStep (totalTimeout chunkTimeout : Option Time) (c : Child)
    (env : ReadEnv) (tt : ReadingItemTimeoutTimes) (now : Time) :
    Except ChildErr StepResult :=
  match read c env with
  | .error .processIsDead =>
    .ok ⟨some ⟨none, none, some (.procEnd c.pid)⟩, true, tt⟩
  | .error e => .error e
  | .ok (some d) =>
    .ok ⟨some ⟨some d.stdout, some d.stderr, none⟩, false, tt⟩
  | .ok none =>
    match extractTotalTimeout c totalTimeout with
    | some t =>
      if isTotalTimeout tt t now then
        .ok ⟨some ⟨none, none, some (.totalTimeout c.pid)⟩, true,
          resetTotalTimeout tt now⟩
      else .ok (iterStepChunk chunkTimeout c tt now)
    | none => .ok (iterStepChunk chunkTimeout c tt now)

/-- An object that may be placed in a set operand: either a `ReadingProc`
(identified by its Python object identity) or an object of some other type.
The `isAlive` field records what the `alive` property of the member reports
at the moment of the call. -/
inductive Item where
  | proc (id : Nat) (isAlive : Bool)
  | other (id : Nat)
deriving DecidableEq, Repr

/-- Whether `isinstance(x, ReadingProc)` holds. -/
def isProc : Item → Bool
  | .proc _ _ => true
  | .other _ => false

/-- Result of the `alive` property for a member item (only meaningful on
`ReadingProc` items). -/
def itemAlive : Item → Bool
  | .proc _ a => a
  | .other _ => false

/-- Exceptions of the `ReadingSet` set algebra.  `_operation_sub` contains
`raise DontCallInIterRunError(...)`, a name that is defined nowhere in the
module, so evaluating that raise statement raises `NameError` instead of the
documented `DontCallWhenIterRunError`; the `nameErrorDontCallInIterRun`
constructor records that outcome. -/
inductive SetErr where
  | wrongReadingSetItem
  | dontCallWhenIterRun
  | nameErrorDontCallInIterRun
deriving DecidableEq, Repr

/-- State of a `ReadingSet`: its member set `_set` and `_active_procs`
(`none` when no `iter_run` is in progress). -/
structure RSet where
  items : Finset Item
  activeProcs : Option (Finset Item)
deriving DecidableEq

/-- ReadingSet._check_items: every element of the operand must be a
`ReadingProc`, else `WrongReadingSetItem` is raised. -/
def checkItems (s : Finset Item) : Except SetErr Unit :=
  if ∀ x ∈ s, isProc x = true then .ok () else .error .wrongReadingSetItem

/-- ReadingSet._operation_or: check the operand items, then raise
`DontCallWhenIterRunError` when `_active_procs is not None`, else return a
fresh `ReadingSet` holding the union. -/
def operationOr (rs : RSet) (other : Finset Item) : Except SetErr RSet :=
  match checkItems other with
  | .error e => .error e
  | .ok _ =>
    if rs.activeProcs.isSome then .error .dontCallWhenIterRun
    else .ok ⟨rs.items ∪ other, none⟩

/-- ReadingSet._operation_and: check the operand items and return a fresh
`ReadingSet` holding the intersection; there is no `_active_procs` check. -/
def operationAnd (rs : RSet) (other : Finset Item) : Except SetErr RSet :=
  match checkItems other with
  | .error e => .error e
  | .ok _ => .ok ⟨rs.items ∩ other, none⟩

/-- ReadingSet._operation_sub: check both operands, then — when
`_active_procs is not None` — evaluate the undefined name
`DontCallInIterRunError`, which raises `NameError`; else return a fresh
`ReadingSet` holding the difference. -/
def operationSub (rs : RSet) (first second : Finset Item) : Except SetErr RSet :=
  match checkItems first with
  | .error e => .error e
  | .ok _ =>
    match checkItems second with
    | .error e => .error e
    | .ok _ =>
      if rs.activeProcs.isSome then .error .nameErrorDontCallInIterRun
      else .ok ⟨first \ second, none⟩

/-- ReadingSet.__sub__, which calls `_operation_sub(self, other)`. -/
def subOp (rs : RSet) (other : Finset Item) : Except SetErr RSet :=
  operationSub rs rs.items other

/-- ReadingSet.get_all: a fresh `ReadingSet` over the same member set. -/
def getAll (s : Finset Item) : Finset Item := s

/-- ReadingSet.get_alive: the members whose `alive` property is true. -/
def getAlive (s : Finset Item) : Finset Item :=
  s.filter (fun x => itemAlive x = true)

/-- ReadingSet.get_dead: the members whose `alive` property is false. -/
def getDead (s : Finset Item) : Finset Item :=
  s.filter (fun x => ¬ itemAlive x = true)

/-- A running subprocess handle with pid 42. -/
def pRun : Proc := ⟨42, none, [], 0, 0⟩

/-- A started child whose process is running. -/
def cRun : Child := ⟨some pRun, some 42, none, 0, 0, false, false, none, none⟩

/-- A subprocess handle whose process has exited with status 1. -/
def pDead : Proc := ⟨43, some 1, [], 0, 0⟩

/-- A started child whose process has exited but was not reaped: `_proc` is
still present while `poll()` reports an exit status. -/
def cExited : Child := ⟨some pDead, some 43, none, 0, 0, false, false, none, none⟩

/-- A child on which `start` was never called: `_proc` is `None`. -/
def cNew : Child := ⟨none, none, none, 0, 0, false, false, none, none⟩

/-- A fresh handle as produced by `_get_subprocess` for `start`. -/
def pFresh : Proc := ⟨77, none, [], 0, 0⟩

/-- A read cycle in which stdout polls ready and delivers one byte before
the would-block condition. -/
def envData : ReadEnv := ⟨true, false, [.chunk [65], .err EAGAIN], []⟩

/-- A read cycle in which neither pipe polls ready. -/
def envEmpty : ReadEnv := ⟨false, false, [], []⟩

/-- A `ReadingProc` member item and another one, both alive. -/
def procItem1 : Item := .proc 1 true

/-- A second distinct `ReadingProc` member item. -/
def procItem2 : Item := .proc 2 true

/-- A `ReadingSet` that is inside an `iter_run` loop. -/
def rsActive : RSet := ⟨{procItem1}, some ∅⟩

/-- A `ReadingSet` with no iteration in progress. -/
def rsIdle : RSet := ⟨{procItem1}, none⟩

/-! Helper lemmas about `_read_while`. -/

/-- Accumulator form of `_read_while`: the result is the starting buffer
followed by the concatenation of the consumed chunks. -/
theorem readWhileAux_eq_append (events : List ReadResult) :
    ∀ buff : Bytes, readWhileAux buff events = buff ++ (takenChunks events).flatten := by
  induction events with
  | nil => intro buff; simp [readWhileAux, takenChunks]
  | cons ev rest ih =>
    intro buff
    cases ev with
    | chunk b =>
      cases b with
      | nil => simp [readWhileAux, takenChunks, osRead]
      | cons x xs =>
        simp [readWhileAux, takenChunks, osRead, ih]
    | err e => simp [readWhileAux, takenChunks, osRead]

/-- Every chunk consumed by `_read_while` is one of the read results of the
event list. -/
theorem mem_of_mem_takenChunks (events : List ReadResult) :
    ∀ b : Bytes, b ∈ takenChunks events → ReadResult.chunk b ∈ events := by
  induction events with
  | nil => intro b hb; simp [takenChunks] at hb
  | cons ev rest ih =>
    intro b hb
    cases ev with
    | chunk bc =>
      cases bc with
      | nil => simp [takenChunks, osRead] at hb
      | cons x xs =>
        simp only [takenChunks, osRead, List.mem_cons] at hb
        rcases hb with hb | hb
        · rw [hb]; exact List.mem_cons_self _ _
        · exact List.mem_cons_of_mem _ (ih b hb)
    | err e => simp [takenChunks, osRead] at hb

/-- C2, counterexample: on a bad file descriptor (`EBADF`), `_read_while`
swallows the error and returns the (empty) accumulated buffer, whereas the
specified Pipe Reader would surface the unrecoverable OS error; the two
disagree at this input, so unrecoverable errors are not surfaced. -/
theorem readWhile_swallows_ebadf :
    readWhile [ReadResult.err EBADF] = [] ∧
    readWhileSpec [] [ReadResult.err EBADF] = .error EBADF ∧
    (Except.ok (readWhile [ReadResult.err EBADF]) : Except Nat Bytes) ≠
      readWhileSpec [] [ReadResult.err EBADF] := by
  refine ⟨rfl, rfl, fun h => ?_⟩
  simp [readWhile, readWhileAux, readWhileSpec, osRead, EAGAIN, EBADF] at h

/-- C2, amended: for every file descriptor already set non-blocking,
`_read_while` returns the concatenation, in read order, of the chunks read
before the first empty read (EOF) or `OSError` of any kind — would-block and
unrecoverable errors such as `EBADF` alike end the loop, so the accumulated
(possibly empty) buffer is always returned normally and no OS error ever
propagates to the caller. -/
theorem readWhile_concatenates (events : List ReadResult) :
    readWhile events = (takenChunks events).flatten := by
  simpa using readWhileAux_eq_append events []

/-- C3: in the per-cycle timeout check, when the current time exceeds both
the chunk deadline and the total deadline, `ChunkTimeout` is the exception
raised — it takes precedence over `TotalTimeout`. -/
theorem checkTimeouts_chunk_precedence (ct tt chunkTime totalTime cur : Time)
    (h1 : cur > chunkTime + ct) (_h2 : cur > totalTime + tt) :
    checkTimeouts (some ct) (some tt) chunkTime totalTime cur =
      some TimeoutExc.chunkTimeout := by
  simp [checkTimeouts, timeoutExpired, h1]

/-- Witness for C3: both deadlines are exceeded at time 9 and the chunk
timeout is the one reported. -/
theorem checkTimeouts_chunk_precedence_witness :
    checkTimeouts (some 1) (some 2) 0 0 9 = some TimeoutExc.chunkTimeout :=
  checkTimeouts_chunk_precedence 1 2 0 0 9 (by norm_num) (by norm_num)

/-- C1, counterexample: at time 9, a member whose `read` returns data is
yielded with no exception, but its `ReadingItemTimeoutTimes` entry is left
completely untouched — the chunk base stays 5 instead of being reset to the
current time 9, contradicting the claimed reset on every byte-bearing
observation. -/
theorem iterStep_data_no_chunk_reset :
    iterStep (some 100) (some 100) cRun envData ⟨3, 5⟩ 9 =
      .ok ⟨some ⟨some [65], some [], none⟩, false, ⟨3, 5⟩⟩ ∧
    (⟨3, 5⟩ : ReadingItemTimeoutTimes).chunkTimeoutTime = 5 ∧
    (5 : ℚ) ≠ 9 := by
  refine ⟨rfl, rfl, by norm_num⟩

/-- C1, amended: whenever a member child's `read` returns an observation,
the driver yields `(child, ReadingItemData(stdout, stderr, exception=None))`
but does not touch the child's timeout entry: the chunk base keeps its old
value (it is reset only at iteration start and when a chunk timeout fires),
so a later effective chunk timeout is measured from the start of the
iteration, not from the most recent byte-bearing observation. -/
theorem iterStep_data_yields_without_reset (totalTO chunkTO : Option Time)
    (c : Child) (env : ReadEnv) (tt : ReadingItemTimeoutTimes) (now : Time)
    (d : ProcessData) (h : read c env = .ok (some d)) :
    iterStep totalTO chunkTO c env tt now =
      .ok ⟨some ⟨some d.stdout, some d.stderr, none⟩, false, tt⟩ := by
  simp [iterStep, h]

/-- Witness for the amended C1 at a concrete running child. -/
theorem iterStep_data_yields_without_reset_witness :
    iterStep (some 100) (some 100) cRun envData ⟨3, 5⟩ 9 =
      .ok ⟨some ⟨some [65], some [], none⟩, false, ⟨3, 5⟩⟩ :=
  iterStep_data_yields_without_reset (some 100) (some 100) cRun envData
    ⟨3, 5⟩ 9 ⟨[65], []⟩ rfl

/-- C4, counterexample: `start` called on a RUNNING child does not raise; it
returns normally, silently replacing the process handle with the fresh
one. -/
theorem start_on_running_returns_ok :
    alive cRun = true ∧
    start cRun pFresh =
      .ok { cRun with proc := some pFresh, pid := some 77, returnCode := none } :=
  ⟨rfl, rfl⟩

/-- C4, amended: `start` is valid from NEW and REAPED and moves the child to
RUNNING with `return_code` reset to null — but calling it while RUNNING is
not an error either: from every state it succeeds, installing the fresh
handle (the previous running process is simply abandoned). -/
theorem start_always_succeeds (c : Child) (fresh : Proc)
    (h : fresh.exitCode = none) :
    start c fresh =
      .ok { c with proc := some fresh, pid := some fresh.pid, returnCode := none } ∧
    alive { c with proc := some fresh, pid := some fresh.pid, returnCode := none } = true := by
  refine ⟨rfl, ?_⟩
  simp [alive, h]

/-- Witness for the amended C4 at a never-started child. -/
theorem start_always_succeeds_witness :
    start cNew pFresh =
      .ok { cNew with proc := some pFresh, pid := some 77, returnCode := none } ∧
    alive { cNew with proc := some pFresh, pid := some 77, returnCode := none } = true :=
  start_always_succeeds cNew pFresh rfl

/-- C5, counterexample: `read` on a child that was never started raises
`ProcessIsNotStartedError`, not `ProcessIsDeadError`, so not every
non-RUNNING child produces `ProcessAlreadyDead`. -/
theorem read_nonrunning_errors :
    read cNew envEmpty = .error .processIsNotStarted ∧
    ChildErr.processIsNotStarted ≠ ChildErr.processIsDead := by
  exact ⟨rfl, by decide⟩

/-- C5, amended: `read` raises `ProcessIsNotStartedError` when the process
handle is absent (never started, or reaped), raises `ProcessIsDeadError`
when the handle is present but the process has exited, and on a RUNNING
child returns the result of `_yield_ready_read`: `None` when both pipes were
unready, and an observation — carrying at least one byte — when bytes were
drained. -/
theorem read_state_cases (c : Child) (env : ReadEnv) (p : Proc)
    (d : ProcessData) :
    (c.proc = none → read c env = .error .processIsNotStarted) ∧
    (c.proc = some p → p.exitCode ≠ none → read c env = .error .processIsDead) ∧
    (c.proc = some p → p.exitCode = none → read c env = .ok (yieldReadyRead env)) ∧
    (env.pollStdout = false → env.pollStderr = false → yieldReadyRead env = none) ∧
    (yieldReadyRead env = some d → d.stdout.length > 0 ∨ d.stderr.length > 0) := by
  refine ⟨?_, ?_, ?_, ?_, ?_⟩
  · intro h; simp [read, readFull, h, Except.map]
  · intro h hex
    rcases hpe : p.exitCode with _ | v
    · exact absurd hpe hex
    · simp [read, readFull, h, hpe, Except.map]
  · intro h hex; simp [read, readFull, h, hex, Except.map]
  · intro h1 h2; simp [yieldReadyRead, h1, h2]
  · intro h
    simp only [yieldReadyRead] at h
    by_cases hc : (if env.pollStdout then readWhile env.stdoutEvents else []).length > 0 ∨
        (if env.pollStderr then readWhile env.stderrEvents else []).length > 0
    · rw [if_pos hc] at h
      cases h
      simpa using hc
    · rw [if_neg hc] at h
      cases h

/-- Witness for the amended C5 on a never-started, an exited and a running
child. -/
theorem read_state_cases_witness :
    read cNew envEmpty = .error .processIsNotStarted ∧
    read cExited envEmpty = .error .processIsDead ∧
    read cRun envData = .ok (some ⟨[65], []⟩) ∧
    yieldReadyRead envEmpty = none := by
  have h1 := (read_state_cases cNew envEmpty pRun ⟨[], []⟩).1 rfl
  have h2 := (read_state_cases cExited envEmpty pDead ⟨[], []⟩).2.1 rfl (by decide)
  have h3 := (read_state_cases cRun envData pRun ⟨[], []⟩).2.2.1 rfl rfl
  have h4 := (read_state_cases cNew envEmpty pRun ⟨[], []⟩).2.2.2.1 rfl rfl
  exact ⟨h1, h2, by rw [h3]; rfl, h4⟩

/-- C6, counterexample: `send_stdin` on a child whose process has exited but
was not reaped does not raise `ProcessIsNotStartedError` — the started-check
only tests whether the process handle is present, so the write is attempted
normally. -/
theorem sendStdin_exited_no_error :
    alive cExited = false ∧
    sendStdin cExited [7] =
      .ok { cExited with proc := some { pDead with stdinBuf := [7] } } :=
  ⟨rfl, rfl⟩

/-- C6, amended: `send_stdin` writes the bytes to the child's stdin and
flushes; it raises `ProcessIsNotStartedError` exactly when the process
handle is absent (never started, or reaped) — a child that has exited but
has not been reaped still accepts the write. -/
theorem sendStdin_started_check (c : Child) (s : Bytes) (p : Proc) :
    (c.proc = none → sendStdin c s = .error .processIsNotStarted) ∧
    (c.proc = some p →
      sendStdin c s =
        .ok { c with proc := some { p with stdinBuf := p.stdinBuf ++ s } }) := by
  constructor
  · intro h; simp [sendStdin, h]
  · intro h; simp [sendStdin, h]

/-- Witness for the amended C6 on a never-started and an exited child. -/
theorem sendStdin_started_check_witness :
    sendStdin cNew [7] = .error .processIsNotStarted ∧
    sendStdin cExited [7] =
      .ok { cExited with proc := some { pDead with stdinBuf := [7] } } :=
  ⟨(sendStdin_started_check cNew [7] pRun).1 rfl,
   (sendStdin_started_check cExited [7] pDead).2 rfl⟩

/-- The stdout and stderr flag words (together with the rest of the process
handle) visible on a child, `none` when no handle is present. -/
def procFlags : Option Proc → Option (Nat × Nat)
  | none => none
  | some p => some (p.stdoutFlags, p.stderrFlags)

/-- When the `iter_run` loop ends in a raised timeout, the final child still
holds the same process handle (the flag restore in `finally` brought the
descriptor flags back to the values in `p`), its return code is unchanged
(no reap happened) and the poll registration has been torn down. -/
theorem iterRunLoop_raised_state (chunkTO totalTO : Option Time) (p : Proc)
    (cycles : List Cycle) :
    ∀ (c : Child) (acc ys : List ProcessData) (e : TimeoutExc) (cf : Child),
      iterRunLoop chunkTO totalTO p c cycles acc = .raised ys e cf →
      cf.proc = some p ∧ cf.returnCode = c.returnCode ∧
        cf.pollRegistered = false := by
  induction cycles with
  | nil =>
    intro c acc ys e cf h
    simp [iterRunLoop] at h
  | cons cy rest ih =>
    intro c acc ys e cf h
    simp only [iterRunLoop] at h
    split at h
    · simp at h
    · split at h
      · cases h
        exact ⟨rfl, rfl, rfl⟩
      · split at h
        · obtain ⟨h1, h2, h3⟩ := ih _ _ _ _ _ h
          exact ⟨h1, h2, h3⟩
        · obtain ⟨h1, h2, h3⟩ := ih _ _ _ _ _ h
          exact ⟨h1, h2, h3⟩

/-- When the supplied cycle trace runs out while the process is still
running, the in-flight child state again holds the same process handle and
return code as at entry, with the poll registration still in place. -/
theorem iterRunLoop_outOfFuel_state (chunkTO totalTO : Option Time) (p : Proc)
    (cycles : List Cycle) :
    ∀ (c : Child) (acc ys : List ProcessData) (cf : Child),
      c.proc = some p →
      iterRunLoop chunkTO totalTO p c cycles acc = .outOfFuel ys cf →
      cf.proc = some p ∧ cf.returnCode = c.returnCode ∧
        cf.pollRegistered = c.pollRegistered := by
  induction cycles with
  | nil =>
    intro c acc ys cf hp h
    simp only [iterRunLoop] at h
    cases h
    exact ⟨hp, rfl, rfl⟩
  | cons cy rest ih =>
    intro c acc ys cf hp h
    simp only [iterRunLoop] at h
    split at h
    · simp at h
    · split at h
      · simp at h
      · split at h
        · obtain ⟨h1, h2, h3⟩ := ih _ _ _ _ (by exact rfl) h
          exact ⟨h1, h2, h3⟩
        · obtain ⟨h1, h2, h3⟩ := ih _ _ _ _ (by exact rfl) h
          exact ⟨h1, h2, h3⟩

/-- The child state left behind by the concrete timed-out run below: only
`_chunk_time` differs from `cRun`. -/
def cAfterTimeout : Child := { cRun with chunkTime := 1 }

/-- A concrete run: the child yields one observation at time 1, then stays
silent and the chunk timeout of 5 fires at time 10, leaving the child with
its chunk base at 1 and everything else as before. -/
theorem iterRun_timeout_run :
    iterRun (some 5) none 0 cRun [⟨1, none, envData⟩, ⟨10, none, envEmpty⟩] =
      .ok (.raised [⟨[65], []⟩] .chunkTimeout cAfterTimeout) := by
  have e1 : timeoutExpired (some 5) 0 1 = false := by
    simp only [timeoutExpired, decide_eq_false_iff_not]
    norm_num
  have e2 : timeoutExpired (some 5) 1 10 = true := by
    simp only [timeoutExpired, decide_eq_true_eq]
    norm_num
  have e0 : ∀ b cur : Time, timeoutExpired none b cur = false := fun _ _ => rfl
  have eyd : yieldReadyRead envData = some ⟨[65], []⟩ := rfl
  have eye : yieldReadyRead envEmpty = none := rfl
  simp [iterRun, iterRunLoop, checkTimeouts, e0, e1, e2, eyd, eye, cRun, pRun,
    cAfterTimeout]

/-- C8: when a single-child `iter_run` exits via a raised timeout exception,
the poll registration is torn down but the child is left alive — the process
handle survives untouched and the child is not reaped (its return code is
unchanged); a subsequent `iter_run` call on the same child overwrites both
deadline bases at entry, so its behaviour is independent of the stale
`_chunk_time` and `_total_time` values left behind, and it can resume,
yielding an observation and then completing normally with the exit code
collected. -/
theorem iterRun_exception_recovery
    (chunkTO totalTO cTO2 tTO2 : Option Time) (t0 t0a sa sb t1 t2 : Time)
    (c : Child) (p : Proc) (cycles cycles2 : List Cycle)
    (ys : List ProcessData) (e : TimeoutExc) (cf : Child)
    (env : ReadEnv) (d : ProcessData) (code : Int)
    (hp : c.proc = some p)
    (h : iterRun chunkTO totalTO t0 c cycles = .ok (.raised ys e cf))
    (hd : yieldReadyRead env = some d) :
    cf.proc = some p ∧ cf.returnCode = c.returnCode ∧ cf.pollRegistered = false ∧
    iterRun cTO2 tTO2 t0a cf cycles2 =
      iterRun cTO2 tTO2 t0a { cf with chunkTime := sa, totalTime := sb } cycles2 ∧
    iterRun none none t0a cf [⟨t1, none, env⟩, ⟨t2, some code, envEmpty⟩] =
      .ok (.done [d] { cf with
                       proc := none, returnCode := some code,
                       pollRegistered := false, chunkTime := t1,
                       totalTime := t0a }) := by
  simp only [iterRun, hp, Except.ok.injEq] at h
  obtain ⟨h1, h2, h3⟩ := iterRunLoop_raised_state chunkTO totalTO p cycles _ _ _ _ _ h
  have hyE : yieldReadyRead envEmpty = none := rfl
  refine ⟨h1, h2, h3, ?_, ?_⟩
  · simp [iterRun, h1]
  · simp [iterRun, iterRunLoop, h1, hd, hyE, checkTimeouts, timeoutExpired]

/-- Witness for C8: a run that reads one observation and then hits the
chunk timeout, followed by a successful resumed run on the final state. -/
theorem iterRun_exception_recovery_witness :
    cAfterTimeout.proc = some pRun ∧
    cAfterTimeout.returnCode = cRun.returnCode ∧
    cAfterTimeout.pollRegistered = false ∧
    iterRun none none 20 cAfterTimeout [] =
      iterRun none none 20 { cAfterTimeout with chunkTime := 99, totalTime := 98 } [] ∧
    iterRun none none 20 cAfterTimeout
        [⟨21, none, envData⟩, ⟨22, some 0, envEmpty⟩] =
      .ok (.done [⟨[65], []⟩]
        { cAfterTimeout with
          proc := none, returnCode := some 0,
          pollRegistered := false, chunkTime := 21, totalTime := 20 }) :=
  iterRun_exception_recovery (some 5) none none none 0 20 99 98 21 22 cRun pRun
    [⟨1, none, envData⟩, ⟨10, none, envEmpty⟩] [] [⟨[65], []⟩] .chunkTimeout
    cAfterTimeout envData ⟨[65], []⟩ 0 rfl iterRun_timeout_run rfl

/-- C9: the non-blocking status flags of the stdout and stderr descriptors
(indeed the whole process handle) are the same after an `iter_run` or `read`
call as before it, on the exit paths where the handle survives: a raised
timeout, an exhausted trace while still running, and a completed `read`
(the flags are raised only for the duration of the read cycle and the saved
words are restored in the `finally` blocks; on the error paths the flags are
never touched, and on normal `iter_run` completion the reap closes the pipes
together with the handle). -/
theorem nonblocking_flags_preserved
    (chunkTO totalTO : Option Time) (t0 : Time) (c : Child) (p : Proc)
    (cycles : List Cycle) (env : ReadEnv)
    (ys ys2 : List ProcessData) (e : TimeoutExc) (cf cf2 c3 : Child)
    (r : Option ProcessData)
    (hp : c.proc = some p) :
    (iterRun chunkTO totalTO t0 c cycles = .ok (.raised ys e cf) →
      procFlags cf.proc = procFlags c.proc) ∧
    (iterRun chunkTO totalTO t0 c cycles = .ok (.outOfFuel ys2 cf2) →
      procFlags cf2.proc = procFlags c.proc) ∧
    (readFull c env = .ok (r, c3) → procFlags c3.proc = procFlags c.proc) := by
  refine ⟨?_, ?_, ?_⟩
  · intro h
    simp only [iterRun, hp, Except.ok.injEq] at h
    obtain ⟨h1, -, -⟩ := iterRunLoop_raised_state chunkTO totalTO p cycles _ _ _ _ _ h
    rw [h1, hp]
  · intro h
    simp only [iterRun, hp, Except.ok.injEq] at h
    obtain ⟨h1, -, -⟩ :=
      iterRunLoop_outOfFuel_state chunkTO totalTO p cycles _ _ _ _ (by exact rfl) h
    rw [h1, hp]
  · intro h
    rcases hpe : p.exitCode with _ | v
    · simp only [readFull, hp, hpe, Option.isNone_some, Option.isNone_none,
        if_true, Except.ok.injEq, Prod.mk.injEq] at h
      obtain ⟨-, hc3⟩ := h
      rw [← hc3, hp]
      rfl
    · simp [readFull, hp, hpe] at h

/-- Witness for C9: the flags are unchanged after a run raising a chunk
timeout, after a run whose trace ends while the process still runs, and
after a completed `read` call. -/
theorem nonblocking_flags_preserved_witness :
    procFlags cAfterTimeout.proc = procFlags cRun.proc ∧
    procFlags (Child.proc { cRun with pollRegistered := true }) = procFlags cRun.proc ∧
    procFlags cRun.proc = procFlags cRun.proc := by
  have H1 := (nonblocking_flags_preserved (some 5) none 0 cRun pRun
    [⟨1, none, envData⟩, ⟨10, none, envEmpty⟩] envData [⟨[65], []⟩] []
    .chunkTimeout cAfterTimeout cRun cRun none rfl).1 iterRun_timeout_run
  have H2 := (nonblocking_flags_preserved (some 5) none 0 cRun pRun
    [] envData [] [] .chunkTimeout cRun { cRun with pollRegistered := true }
    cRun none rfl).2.1 rfl
  have H3 := (nonblocking_flags_preserved (some 5) none 0 cRun pRun
    [] envData [] [] .chunkTimeout cRun cRun cRun (some ⟨[65], []⟩) rfl).2.2 rfl
  exact ⟨H1, H2, H3⟩

/-- C7: while an iteration is in progress, union raises the documented
`DontCallWhenIterRunError`, and intersection succeeds — but difference hits
the undefined name `DontCallInIterRunError` in `_operation_sub` and raises
`NameError` instead of the documented exception; with no iteration in
progress, union and difference return the ordinary set-algebra results. -/
theorem operationSub_raises_nameerror :
    operationOr rsActive {procItem2} = .error .dontCallWhenIterRun ∧
    subOp rsActive {procItem2} = .error .nameErrorDontCallInIterRun ∧
    SetErr.nameErrorDontCallInIterRun ≠ SetErr.dontCallWhenIterRun ∧
    operationAnd rsActive {procItem2} = .ok ⟨∅, none⟩ ∧
    subOp rsIdle {procItem2} = .ok ⟨{procItem1}, none⟩ ∧
    operationOr rsIdle {procItem2} = .ok ⟨{procItem1, procItem2}, none⟩ := by
  refine ⟨rfl, rfl, by decide, ?_, ?_, ?_⟩
  · rfl
  · rfl
  · rfl

/-- C10: `get_alive` and `get_dead` partition the member set with respect to
the `alive` predicate — a member is in `get_alive` iff it is a member and
alive, in `get_dead` iff it is a member and not alive, the two results are
disjoint, and their union is `get_all`. -/
theorem getAlive_getDead_partition (s : Finset Item) (x : Item) :
    (x ∈ getAlive s ↔ x ∈ getAll s ∧ itemAlive x = true) ∧
    (x ∈ getDead s ↔ x ∈ getAll s ∧ ¬ itemAlive x = true) ∧
    Disjoint (getAlive s) (getDead s) ∧
    getAlive s ∪ getDead s = getAll s := by
  refine ⟨?_, ?_, ?_, ?_⟩
  · simp [getAlive, getAll, Finset.mem_filter]
  · simp [getDead, getAll, Finset.mem_filter]
  · exact Finset.disjoint_filter_filter_neg s s _
  · exact Finset.filter_union_filter_neg_eq _ s

end Readingproc
